import Mathlib

/-!
# Verification of the X4 mod manager reconciliation core (`src/main.py`)

A shallow embedding of the mod-management core of `main.py`: the two scanned
roots (the managed `mods` directory and the configured `extensions` directory)
are modelled as optional association lists of named entries, and the operations
`parse_content_xml`, `get_available_mods`, `get_installed_mods`, `list_mods`,
`install_mod`, `uninstall_mod`, `delete_mod` and `save_config` are translated
function by function.  Python path semantics are modelled faithfully:
`Path.exists()` follows symlinks (so a dangling symlink does not "exist"),
`Path.is_symlink()` does not, `Path.is_dir()` follows symlinks, and
`os.symlink` fails with `FileExistsError` when any entry (including a dangling
symlink) already occupies the destination name.
-/

set_option autoImplicit false

/-- The attributes found on the root element of a `content.xml` file.
`none` means the attribute is absent (so `ElementTree`'s `root.get` falls back
to its default). -/
structure ContentAttrs where
  id : Option String
  name : Option String
  author : Option String
  version : Option String
  description : Option String
  date : Option String
  enabled : Option String
deriving Repr, DecidableEq

/-- The outcome of reading a `content.xml` file: either the markup is
malformed / the file unreadable (`ET.parse` raises), or there is a root
element carrying the attributes. -/
inductive XmlResult where
  | malformed
  | elem (attrs : ContentAttrs)
deriving Repr, DecidableEq

/-- What a symbolic link in the extensions directory resolves to. -/
inductive LinkTarget where
  /-- The link points at `MODS_DIR / tname` (its resolved parent is the
  managed root); whether the target actually exists depends on the managed
  root's current entries. -/
  | intoManaged (tname : String)
  /-- The link resolves to an existing directory outside the managed root,
  which may or may not contain a `content.xml`. -/
  | elsewhereDir (manifest : Option XmlResult)
  /-- The link resolves to an existing non-directory outside the managed
  root. -/
  | elsewhereFile
  /-- The link's target does not exist (a dangling symlink). -/
  | dangling
deriving Repr, DecidableEq

/-- An immediate child of the managed `mods` directory: a plain file, or a
real directory that contains a `content.xml` (`some`) or not (`none`). -/
inductive MEntry where
  | file
  | dir (manifest : Option XmlResult)
deriving Repr, DecidableEq

/-- An immediate child of the extensions directory: a plain file, a real
directory (with or without `content.xml`), or a symbolic link. -/
inductive XEntry where
  | file
  | dir (manifest : Option XmlResult)
  | link (target : LinkTarget)
deriving Repr, DecidableEq

/-- The filesystem state seen by the program: the managed root (`MODS_DIR`)
and the external root (the configured extensions directory).  `none` means
the root itself does not exist; entry names within one directory are unique
on a real filesystem. -/
structure FS where
  managed : Option (List (String × MEntry))
  external : Option (List (String × XEntry))
deriving Repr, DecidableEq

/-- Directory lookup: the entry named `nm`, if present. -/
def lookupName {α : Type} (nm : String) : List (String × α) → Option α
  | [] => none
  | p :: ps => if p.1 == nm then some p.2 else lookupName nm ps

/-- Directory removal (`os.unlink` / `shutil.rmtree` of one child): drops the
entry named `nm`. -/
def eraseName {α : Type} (nm : String) : List (String × α) → List (String × α)
  | [] => []
  | p :: ps => if p.1 == nm then ps else p :: eraseName nm ps

/-- `(MODS_DIR / nm).exists()`: true iff the managed root exists and has an
entry of that name (a plain file counts). -/
def managedPathExists (fs : FS) (nm : String) : Bool :=
  (lookupName nm (fs.managed.getD [])).isSome

/-- Whether a managed entry is a directory (`Path.is_dir()`). -/
def MEntry.isDir : MEntry → Bool
  | .dir _ => true
  | .file => false

/-- `{f.name for f in MODS_DIR.iterdir() if f.is_dir()}` — the names of the
directories under the managed root. -/
def managedDirNames (fs : FS) : List String :=
  (fs.managed.getD []).filterMap (fun p => if p.2.isDir then some p.1 else none)

/-- Whether a link target resolves to an existing filesystem object. -/
def linkTargetExists (fs : FS) : LinkTarget → Bool
  | .intoManaged n => (lookupName n (fs.managed.getD [])).isSome
  | .elsewhereDir _ => true
  | .elsewhereFile => true
  | .dangling => false

/-- Whether a link target resolves to an existing directory. -/
def linkTargetIsDir (fs : FS) : LinkTarget → Bool
  | .intoManaged n =>
    match lookupName n (fs.managed.getD []) with
    | some (.dir _) => true
    | _ => false
  | .elsewhereDir _ => true
  | .elsewhereFile => false
  | .dangling => false

/-- The `content.xml` reachable through a link target, if any. -/
def linkTargetManifest (fs : FS) : LinkTarget → Option XmlResult
  | .intoManaged n =>
    match lookupName n (fs.managed.getD []) with
    | some (.dir m) => m
    | _ => none
  | .elsewhereDir m => m
  | .elsewhereFile => none
  | .dangling => none

/-- `Path.is_symlink()` for an external entry. -/
def XEntry.isLink : XEntry → Bool
  | .link _ => true
  | _ => false

/-- `Path.exists()` for an external entry — follows symlinks, so a dangling
symlink does not "exist". -/
def xEntryExists (fs : FS) : XEntry → Bool
  | .file => true
  | .dir _ => true
  | .link t => linkTargetExists fs t

/-- `Path.is_dir()` for an external entry — follows symlinks. -/
def xEntryIsDir (fs : FS) : XEntry → Bool
  | .file => false
  | .dir _ => true
  | .link t => linkTargetIsDir fs t

/-- `(folder / "content.xml").exists()` seen through an external entry,
with the file's parse outcome. -/
def xEntryManifest (fs : FS) : XEntry → Option XmlResult
  | .file => none
  | .dir m => m
  | .link t => linkTargetManifest fs t

/-- `folder.resolve().parent == MODS_DIR` for an external entry: true exactly
when the entry is a symlink pointing into the managed root. -/
def resolvesIntoManaged : XEntry → Bool
  | .link (.intoManaged _) => true
  | _ => false

/-- The external entry named `nm`, if the external root exists and has one. -/
def extEntry (fs : FS) (nm : String) : Option XEntry :=
  lookupName nm (fs.external.getD [])

/-- `(extensions_dir / nm).exists()` — follows symlinks. -/
def extPathExists (fs : FS) (nm : String) : Bool :=
  match extEntry fs nm with
  | none => false
  | some e => xEntryExists fs e

/-- `(extensions_dir / nm).is_symlink()`. -/
def extPathIsSymlink (fs : FS) (nm : String) : Bool :=
  match extEntry fs nm with
  | some (.link _) => true
  | _ => false

/-- Whether any entry named `nm` occupies the external path, dangling
symlinks included (`os.path.lexists`); this is what `os.symlink` checks
before raising `FileExistsError`. -/
def extLexists (fs : FS) (nm : String) : Bool :=
  (extEntry fs nm).isSome

/-- The record `parse_content_xml` extracts from a parsable manifest. -/
structure ParsedInfo where
  id : String
  name : String
  author : String
  version : String
  description : String
  date : String
  enabled : Bool
deriving Repr, DecidableEq

/-- `parse_content_xml`: absent attributes fall back to their defaults via
`root.get`, `enabled` compares the raw (or default `"1"`) value against
`"1"`, and any parse fault yields `None`. -/
def parse_content_xml : XmlResult → Option ParsedInfo
  | .malformed => none
  | .elem a =>
    some {
      id := a.id.getD "unknown"
      name := a.name.getD "Unknown Mod"
      author := a.author.getD "Unknown"
      version := a.version.getD "0"
      description := a.description.getD ""
      date := a.date.getD ""
      enabled := a.enabled.getD "1" == "1" }

/-- The `ModInfo` dataclass. -/
structure ModInfo where
  id : String
  name : String
  author : String
  version : String
  description : String
  date : String
  enabled : Bool
  folder_name : String
  source_path : String
  is_managed : Bool
  is_installed : Bool
  is_symlink : Bool
deriving Repr, DecidableEq

/-- The body of `get_available_mods`'s loop for one child of the managed
root: directories with a parsable `content.xml` yield a managed record,
annotated with the installed/symlink state of the same-named external
path. -/
def availableRecord (fs : FS) (p : String × MEntry) : Option ModInfo :=
  match p.2 with
  | .file => none
  | .dir contentXml =>
    match contentXml with
    | none => none
    | some xml =>
      match parse_content_xml xml with
      | none => none
      | some info =>
        let is_installed := extPathExists fs p.1
        let is_symlink := if is_installed then extPathIsSymlink fs p.1 else false
        some {
          id := info.id
          name := info.name
          author := info.author
          version := info.version
          description := info.description
          date := info.date
          enabled := info.enabled
          folder_name := p.1
          source_path := "mods/" ++ p.1
          is_managed := true
          is_installed := is_installed
          is_symlink := is_symlink }

/-- `get_available_mods`: scan the managed root (empty when absent). -/
def get_available_mods (fs : FS) : List ModInfo :=
  match fs.managed with
  | none => []
  | some ms => ms.filterMap (availableRecord fs)

/-- The body of `get_installed_mods`'s loop for one child of the external
root: only directories (through symlinks) are considered; symlinks resolving
into the managed root and names matching a managed directory are skipped;
the rest need a parsable `content.xml`. -/
def installedRecord (fs : FS) (managed_folders : List String) (p : String × XEntry) : Option ModInfo :=
  if xEntryIsDir fs p.2 then
    if resolvesIntoManaged p.2 then none
    else if managed_folders.contains p.1 then none
    else
      match xEntryManifest fs p.2 with
      | none => none
      | some xml =>
        match parse_content_xml xml with
        | none => none
        | some info =>
          some {
            id := info.id
            name := info.name
            author := info.author
            version := info.version
            description := info.description
            date := info.date
            enabled := info.enabled
            folder_name := p.1
            source_path := "ext/" ++ p.1
            is_managed := false
            is_installed := true
            is_symlink := p.2.isLink }
  else none

/-- `get_installed_mods`: scan the external root (empty when absent). -/
def get_installed_mods (fs : FS) : List ModInfo :=
  match fs.external with
  | none => []
  | some es => es.filterMap (installedRecord fs (managedDirNames fs))

/-- The payload of the `/api/mods` route: the managed and external lists. -/
structure ModLists where
  managed : List ModInfo
  external : List ModInfo
deriving Repr, DecidableEq

/-- `list_mods`: both scans, bundled. -/
def list_mods (fs : FS) : ModLists :=
  { managed := get_available_mods fs, external := get_installed_mods fs }

/-- An OS-level failure (`OSError`) as the program sees it: its message
(`str(e)`), plus a tag recording whether the failure really is a
permission/privilege denial.  The tag is modelled from the spec ("a specific
privilege-required error class"); the program itself only ever inspects the
message text. -/
structure OSErr where
  msg : String
  isPermissionDenial : Bool
deriving Repr, DecidableEq

/-- Whether `needle` occurs as a contiguous run starting at some suffix of
the haystack. -/
def strContainsAux (needle : List Char) : List Char → Bool
  | [] => needle.isEmpty
  | b :: bs => needle.isPrefixOf (b :: bs) || strContainsAux needle bs

/-- Substring test: `needle in hay` on Python strings. -/
def strContains (needle hay : String) : Bool :=
  strContainsAux needle.toList hay.toList

/-- `str.lower()`, character by character. -/
def lowerChars (s : String) : List Char :=
  s.toList.map Char.toLower

/-- The result taxonomy of `install_mod` (HTTP statuses 404, 400, 403, 500
and the two success payloads). -/
inductive InstallResult where
  | notFound
  | invalidConfig
  | alreadyInstalled
  | conflict
  | success
  | permissionDenied
  | ioError (msg : String)
deriving Repr, DecidableEq

/-- `install_mod`'s `except OSError` clause: a message mentioning
`"privilege"` (case-insensitively) or `"1314"` becomes the 403
permission-denied error, anything else the generic 500. -/
def map_symlink_error (msg : String) : InstallResult :=
  if strContainsAux "privilege".toList (lowerChars msg) || strContains "1314" msg then
    .permissionDenied
  else
    .ioError msg

/-- The message of the `FileExistsError` that `os.symlink` raises when an
entry already occupies the destination path. -/
def fileExistsMsg : String := "[Errno 17] File exists"

/-- The state change of a successful `os.symlink(mod_path, ext_path)`: a new
symlink named `nm` in the external root, pointing at `MODS_DIR / nm`. -/
def addExtLink (fs : FS) (nm : String) : FS :=
  { fs with external := some ((fs.external.getD []) ++ [(nm, .link (.intoManaged nm))]) }

/-- `install_mod folder_name`.  `osFail` is the OS outcome of the final
`os.symlink` call when it is reached with a free destination (`none` =
success); when the destination name is still occupied (possible only by a
dangling symlink at that point), `os.symlink` deterministically raises
`FileExistsError`. -/
def install_mod (fs : FS) (folder_name : String) (osFail : Option OSErr) : InstallResult × FS :=
  if !managedPathExists fs folder_name then (.notFound, fs)
  else if !fs.external.isSome then (.invalidConfig, fs)
  else if extPathExists fs folder_name then
    if extPathIsSymlink fs folder_name then (.alreadyInstalled, fs)
    else (.conflict, fs)
  else if extLexists fs folder_name then (map_symlink_error fileExistsMsg, fs)
  else
    match osFail with
    | none => (.success, addExtLink fs folder_name)
    | some e => (map_symlink_error e.msg, fs)

/-- The result taxonomy of `uninstall_mod`. -/
inductive UninstallResult where
  | notInstalled
  | refused
  | success
  | ioError (msg : String)
deriving Repr, DecidableEq

/-- The state change of `os.unlink(ext_path)`: remove the external entry. -/
def removeExtEntry (fs : FS) (nm : String) : FS :=
  { fs with external := fs.external.map (eraseName nm) }

/-- `uninstall_mod folder_name`.  `osFail` is the OS outcome of the
`os.unlink` call when it is reached. -/
def uninstall_mod (fs : FS) (folder_name : String) (osFail : Option OSErr) : UninstallResult × FS :=
  if !extPathExists fs folder_name then (.notInstalled, fs)
  else if !extPathIsSymlink fs folder_name then (.refused, fs)
  else
    match osFail with
    | none => (.success, removeExtEntry fs folder_name)
    | some e => (.ioError e.msg, fs)

/-- The result taxonomy of `delete_mod`.  The `os.unlink` inside
`delete_mod` is *not* wrapped in a `try`, so its `OSError` propagates out of
the route handler unhandled — recorded as `unhandledError`, distinct from
the caught `ioError` of the `shutil.rmtree` step. -/
inductive DeleteResult where
  | notFound
  | success
  | ioError (msg : String)
  | unhandledError (msg : String)
deriving Repr, DecidableEq

/-- The state change of `shutil.rmtree(mod_path)`: remove the managed
entry. -/
def removeManagedEntry (fs : FS) (nm : String) : FS :=
  { fs with managed := fs.managed.map (eraseName nm) }

/-- `delete_mod folder_name`.  `unlinkFail` is the OS outcome of the
uninstall-if-symlinked `os.unlink` step (when reached); `rmtreeFail` the
outcome of the `shutil.rmtree` step (when reached). -/
def delete_mod (fs : FS) (folder_name : String) (unlinkFail rmtreeFail : Option OSErr) : DeleteResult × FS :=
  if !managedPathExists fs folder_name then (.notFound, fs)
  else if extPathExists fs folder_name && extPathIsSymlink fs folder_name then
    match unlinkFail with
    | some e => (.unhandledError e.msg, fs)
    | none =>
      let fs1 := removeExtEntry fs folder_name
      match rmtreeFail with
      | none => (.success, removeManagedEntry fs1 folder_name)
      | some e => (.ioError e.msg, fs1)
  else
    match rmtreeFail with
    | none => (.success, removeManagedEntry fs folder_name)
    | some e => (.ioError e.msg, fs)

/-- How far a config write got before failing. -/
inductive WriteOutcome where
  | completed
  | failedAfter (written : Nat)
deriving Repr, DecidableEq

/-- `save_config`: `open(CONFIG_FILE, "w")` truncates the file in place and
`json.dump` then streams the serialized document into it, so an attempt that
fails after `k` characters leaves the `k`-character prefix of the new
document — the previous content is gone either way.  Returns the config
file's content after the attempt. -/
def save_config (_oldContent newDoc : String) : WriteOutcome → String
  | .completed => newDoc
  | .failedAfter k => newDoc.take k

/-! ## Counting measures used by claim C8 -/

/-- N: the number of immediate subdirectories among a scan of the managed
root. -/
def countSubdirs : List (String × MEntry) → Nat
  | [] => 0
  | p :: ps => (if p.2.isDir then 1 else 0) + countSubdirs ps

/-- M: the number of immediate subdirectories lacking a manifest file. -/
def countNoManifest : List (String × MEntry) → Nat
  | [] => 0
  | p :: ps =>
    (if (match p.2 with | .dir none => true | _ => false) then 1 else 0) + countNoManifest ps

/-- K: the number of immediate subdirectories whose manifest file exists but
fails to parse. -/
def countBadManifest : List (String × MEntry) → Nat
  | [] => 0
  | p :: ps =>
    (if (match p.2 with
         | .dir (some xml) => (parse_content_xml xml).isNone
         | _ => false) then 1 else 0) + countBadManifest ps

/-! ## Concrete fixtures used by witnesses -/

/-- A manifest with every attribute absent. -/
def xmlAllDefault : XmlResult := .elem ⟨none, none, none, none, none, none, none⟩

/-- The record `parse_content_xml` produces for `xmlAllDefault`. -/
def infoAllDefault : ParsedInfo := ⟨"unknown", "Unknown Mod", "Unknown", "0", "", "", true⟩

/-- Witness state for C1: `mods/X` is a directory with a parsable manifest
and `extensions/X` is a real directory. -/
def fsW1 : FS := ⟨some [("X", .dir (some xmlAllDefault))], some [("X", .dir none)]⟩

/-- Witness state for C2: `mods/X` is a managed directory, the external root
exists and holds no entry named `X`. -/
def fsW2 : FS := ⟨some [("X", .dir none)], some []⟩

/-- Witness state for C3: `mods/X` exists and `extensions/X` is a real
(non-symlink) directory. -/
def fsW3 : FS := ⟨some [("X", .dir none)], some [("X", XEntry.dir none)]⟩

/-- Witness state for C4: `extensions/X` is a symlink to an existing
directory outside the managed root. -/
def fsW4 : FS := ⟨some [], some [("X", XEntry.link (.elsewhereDir none))]⟩

/-- Witness state for C5: `mods/X` is a managed directory, installed as a
symlink at `extensions/X`. -/
def fsW5 : FS := ⟨some [("X", .dir none)], some [("X", XEntry.link (.intoManaged "X"))]⟩

/-- Witness state for C6: `mods/X` exists, the external root exists and is
empty, so install reaches the `os.symlink` call. -/
def fsW6 : FS := ⟨some [("X", .dir none)], some []⟩

/-- Witness scan for C8: two real mod folders (one with a parsable manifest,
one without a manifest) and one plain file. -/
def msW8 : List (String × MEntry) := [("A", .dir (some xmlAllDefault)), ("B", .dir none), ("C", .file)]

/-- Witness state for C8: the managed root holds `msW8`. -/
def fsW8 : FS := ⟨some msW8, some []⟩

/-- Witness state for C10: the only managed entry named `X` is a plain file;
the external root exists and is empty. -/
def fsW10 : FS := ⟨some [("X", MEntry.file)], some []⟩

/-! ## Basic lemmas about directory lookup and removal -/

theorem lookupName_cons {α : Type} (nm : String) (p : String × α) (ps : List (String × α)) :
    lookupName nm (p :: ps) = if p.1 == nm then some p.2 else lookupName nm ps := rfl

theorem lookupName_mem {α : Type} {nm : String} {l : List (String × α)} {v : α}
    (h : lookupName nm l = some v) : (nm, v) ∈ l := by
  induction l with
  | nil => cases h
  | cons p ps ih =>
    rw [lookupName_cons] at h
    by_cases hb : (p.1 == nm) = true
    · rw [if_pos hb] at h
      injection h with h2
      have h1 : p.1 = nm := beq_iff_eq.mp hb
      have : (nm, v) = p := by
        rw [← h1, ← h2]
      rw [this]
      exact List.mem_cons_self _ _
    · rw [if_neg hb] at h
      exact List.mem_cons_of_mem _ (ih h)

theorem lookupName_eq_none_of_not_mem {α : Type} {nm : String} {l : List (String × α)}
    (h : nm ∉ l.map Prod.fst) : lookupName nm l = none := by
  induction l with
  | nil => rfl
  | cons p ps ih =>
    rw [List.map_cons, List.mem_cons, not_or] at h
    rw [lookupName_cons, if_neg, ih h.2]
    intro hb
    exact h.1 (beq_iff_eq.mp hb).symm

theorem lookupName_append_of_none {α : Type} {nm : String} {l₁ : List (String × α)}
    (l₂ : List (String × α)) (h : lookupName nm l₁ = none) :
    lookupName nm (l₁ ++ l₂) = lookupName nm l₂ := by
  induction l₁ with
  | nil => rfl
  | cons p ps ih =>
    rw [lookupName_cons] at h
    by_cases hb : (p.1 == nm) = true
    · rw [if_pos hb] at h; cases h
    · rw [List.cons_append, lookupName_cons, if_neg hb]
      rw [if_neg hb] at h
      exact ih h

theorem lookupName_eraseName_ne {α : Type} {nm Y : String} (l : List (String × α))
    (h : Y ≠ nm) : lookupName Y (eraseName nm l) = lookupName Y l := by
  induction l with
  | nil => rfl
  | cons p ps ih =>
    rw [eraseName]
    by_cases hb : (p.1 == nm) = true
    · have hby : ¬((p.1 == Y) = true) := fun hby =>
        h ((beq_iff_eq.mp hby).symm.trans (beq_iff_eq.mp hb))
      rw [if_pos hb, lookupName_cons, if_neg hby]
    · rw [if_neg hb, lookupName_cons, lookupName_cons, ih]

/-! ## Lemmas about the scan record functions -/

theorem availableRecord_eq_some {fs : FS} {p : String × MEntry} {m : ModInfo}
    (h : availableRecord fs p = some m) :
    m.folder_name = p.1 ∧ m.is_managed = true ∧ m.is_installed = extPathExists fs p.1 := by
  rw [availableRecord] at h
  split at h
  · cases h
  · split at h
    · cases h
    · split at h
      · cases h
      · injection h with h2
        rw [← h2]
        exact ⟨rfl, rfl, rfl⟩

theorem availableRecord_dir_some {fs : FS} {nm : String} {xml : XmlResult} {info : ParsedInfo}
    (hp : parse_content_xml xml = some info) :
    availableRecord fs (nm, .dir (some xml)) =
      some {
        id := info.id
        name := info.name
        author := info.author
        version := info.version
        description := info.description
        date := info.date
        enabled := info.enabled
        folder_name := nm
        source_path := "mods/" ++ nm
        is_managed := true
        is_installed := extPathExists fs nm
        is_symlink := if extPathExists fs nm then extPathIsSymlink fs nm else false } := by
  simp only [availableRecord, hp]

theorem installedRecord_eq_some {fs : FS} {mf : List String} {p : String × XEntry} {m : ModInfo}
    (h : installedRecord fs mf p = some m) :
    m.folder_name = p.1 ∧ m.is_managed = false ∧ m.is_installed = true := by
  rw [installedRecord] at h
  split at h
  · split at h
    · cases h
    · split at h
      · cases h
      · split at h
        · cases h
        · split at h
          · cases h
          · injection h with h2
            rw [← h2]
            exact ⟨rfl, rfl, rfl⟩
  · cases h

theorem installedRecord_of_contains {fs : FS} {mf : List String} {p : String × XEntry}
    (h : mf.contains p.1 = true) : installedRecord fs mf p = none := by
  rw [installedRecord]
  by_cases h1 : xEntryIsDir fs p.2 = true
  · rw [if_pos h1]
    by_cases h2 : resolvesIntoManaged p.2 = true
    · rw [if_pos h2]
    · rw [if_neg h2, if_pos h]
  · rw [if_neg h1]

/-! ## Scan-level lemmas -/

/-- Any folder name that names a directory under the managed root is
suppressed from the external list. -/
theorem installed_filter_eq_nil (fs : FS) (X : String) (hX : X ∈ managedDirNames fs) :
    (get_installed_mods fs).filter (fun m => m.folder_name == X) = [] := by
  cases hext : fs.external with
  | none => simp [get_installed_mods, hext]
  | some es =>
    rw [get_installed_mods, hext]
    rw [List.filter_eq_nil_iff]
    intro m hm
    rw [List.mem_filterMap] at hm
    obtain ⟨p, hp, hrec⟩ := hm
    by_cases hname : p.1 = X
    · have hc : (managedDirNames fs).contains p.1 = true := by
        rw [hname]; exact List.elem_iff.mpr hX
      rw [installedRecord_of_contains hc] at hrec
      cases hrec
    · have hfn := (installedRecord_eq_some hrec).1
      intro hbeq
      exact hname (hfn ▸ beq_iff_eq.mp hbeq)

/-- A name absent from a managed scan never shows up among its records. -/
theorem avail_filter_nil_of_not_mem (fs : FS) (ps : List (String × MEntry)) (X : String)
    (h : X ∉ ps.map Prod.fst) :
    (ps.filterMap (availableRecord fs)).filter (fun m => m.folder_name == X) = [] := by
  rw [List.filter_eq_nil_iff]
  intro m hm
  rw [List.mem_filterMap] at hm
  obtain ⟨p, hp, hrec⟩ := hm
  have hfn := (availableRecord_eq_some hrec).1
  intro hbeq
  exact h (List.mem_map.mpr ⟨p, hp, hfn ▸ beq_iff_eq.mp hbeq⟩)

/-- A managed directory with a parsable manifest yields exactly one managed
record under its name. -/
theorem avail_filterMap_single (fs : FS) (ms : List (String × MEntry)) (X : String)
    (xml : XmlResult) (info : ParsedInfo)
    (hnd : (ms.map Prod.fst).Nodup)
    (hX : lookupName X ms = some (.dir (some xml)))
    (hp : parse_content_xml xml = some info) :
    (ms.filterMap (availableRecord fs)).filter (fun m => m.folder_name == X) =
      [{ id := info.id
         name := info.name
         author := info.author
         version := info.version
         description := info.description
         date := info.date
         enabled := info.enabled
         folder_name := X
         source_path := "mods/" ++ X
         is_managed := true
         is_installed := extPathExists fs X
         is_symlink := if extPathExists fs X then extPathIsSymlink fs X else false }] := by
  induction ms with
  | nil => cases hX
  | cons p ps ih =>
    rw [List.map_cons, List.nodup_cons] at hnd
    rw [lookupName_cons] at hX
    by_cases hb : (p.1 == X) = true
    · rw [if_pos hb] at hX
      injection hX with hX2
      have hpx : p.1 = X := beq_iff_eq.mp hb
      have hpfull : p = (X, MEntry.dir (some xml)) := Prod.ext_iff.mpr ⟨hpx, hX2⟩
      rw [List.filterMap_cons, hpfull, availableRecord_dir_some hp]
      rw [List.filter_cons_of_pos]
      · rw [avail_filter_nil_of_not_mem fs ps X (hpx ▸ hnd.1)]
      · exact beq_iff_eq.mpr rfl
    · rw [if_neg hb] at hX
      have htail := ih hnd.2 hX
      rw [List.filterMap_cons]
      cases har : availableRecord fs p with
      | none => exact htail
      | some m =>
        rw [List.filter_cons_of_neg, htail]
        have hfn := (availableRecord_eq_some har).1
        simp only [Bool.not_eq_true]
        rw [Bool.eq_false_iff]
        intro hbeq
        exact hb (beq_iff_eq.mpr (hfn.symm.trans (beq_iff_eq.mp hbeq)))

/-- `avail_filterMap_single`, phrased on `get_available_mods`. -/
theorem avail_filter_single (fs : FS) (ms : List (String × MEntry)) (X : String)
    (xml : XmlResult) (info : ParsedInfo)
    (hm : fs.managed = some ms) (hnd : (ms.map Prod.fst).Nodup)
    (hX : lookupName X ms = some (.dir (some xml)))
    (hp : parse_content_xml xml = some info) :
    (get_available_mods fs).filter (fun m => m.folder_name == X) =
      [{ id := info.id
         name := info.name
         author := info.author
         version := info.version
         description := info.description
         date := info.date
         enabled := info.enabled
         folder_name := X
         source_path := "mods/" ++ X
         is_managed := true
         is_installed := extPathExists fs X
         is_symlink := if extPathExists fs X then extPathIsSymlink fs X else false }] := by
  simp only [get_available_mods, hm]
  exact avail_filterMap_single fs ms X xml info hnd hX hp


/-! ## C1 — dedup of same-named managed and external entries -/

/-- C1 (amended): if `managed/X` is a directory whose manifest parses, and an
entry named `X` exists under the external root and resolves to an existing
object, then `list_mods` reports `X` exactly once across the union of the
managed and external lists — as a managed record with `is_installed = true` —
and `X` never appears in the external list.  (The original claim, without the
parsable-manifest and resolvable-entry qualifications, is refuted by
`c1_dedup_counterexample`.) -/
theorem c1_dedup_amended (fs : FS) (ms : List (String × MEntry)) (X : String)
    (xml : XmlResult) (info : ParsedInfo) (xe : XEntry)
    (hm : fs.managed = some ms) (hnd : (ms.map Prod.fst).Nodup)
    (hX : lookupName X ms = some (.dir (some xml)))
    (hp : parse_content_xml xml = some info)
    (hxe : extEntry fs X = some xe) (hex : xEntryExists fs xe = true) :
    (((list_mods fs).managed ++ (list_mods fs).external).filter
        (fun m => m.folder_name == X)).map (fun m => (m.is_managed, m.is_installed))
      = [(true, true)]
    ∧ (list_mods fs).external.filter (fun m => m.folder_name == X) = [] := by
  have hinst : extPathExists fs X = true := by
    rw [extPathExists, hxe]
    exact hex
  have hXdir : X ∈ managedDirNames fs := by
    simp only [managedDirNames, hm, Option.getD_some]
    exact List.mem_filterMap.mpr ⟨(X, .dir (some xml)), lookupName_mem hX, rfl⟩
  have h2 : (get_installed_mods fs).filter (fun m => m.folder_name == X) = [] :=
    installed_filter_eq_nil fs X hXdir
  have h1 := avail_filter_single fs ms X xml info hm hnd hX hp
  refine ⟨?_, h2⟩
  simp only [list_mods]
  rw [List.filter_append, h1, h2, List.append_nil, List.map_cons, List.map_nil]
  simp [hinst]

/-- C1 witness: `c1_dedup_amended` at the concrete state `fsW1`. -/
theorem c1_dedup_amended_witness :
    lookupName "X" [("X", MEntry.dir (some xmlAllDefault))] = some (MEntry.dir (some xmlAllDefault))
  ∧ ((((list_mods fsW1).managed ++ (list_mods fsW1).external).filter
        (fun m => m.folder_name == "X")).map (fun m => (m.is_managed, m.is_installed))
      = [(true, true)]
    ∧ (list_mods fsW1).external.filter (fun m => m.folder_name == "X") = []) :=
  ⟨by decide,
   c1_dedup_amended fsW1 [("X", MEntry.dir (some xmlAllDefault))] "X" xmlAllDefault
     infoAllDefault (XEntry.dir none) rfl (by decide) (by decide) (by decide)
     (by decide) (by decide)⟩

/-- C1 counterexample to the original claim: `mods/X` is a directory (but has
no manifest) and `extensions/X` is a real directory with a parsable manifest;
`list_mods` reports `X` zero times — not "exactly once as a managed record". -/
theorem c1_dedup_counterexample :
    (let fs : FS := ⟨some [("X", MEntry.dir none)],
                     some [("X", XEntry.dir (some xmlAllDefault))]⟩
     lookupName "X" (fs.managed.getD []) = some (MEntry.dir none)
   ∧ extEntry fs "X" = some (XEntry.dir (some xmlAllDefault))
   ∧ ((list_mods fs).managed ++ (list_mods fs).external).filter
       (fun m => m.folder_name == "X") = []) := by decide

/-! ## Operation-level helpers -/

/-- When the destination name is free and both roots pass their checks,
`install_mod` reaches the `os.symlink` call and its result is decided by the
OS outcome. -/
theorem install_symlink_step (fs : FS) (X : String) (os : Option OSErr)
    (hman : managedPathExists fs X = true)
    (hroot : fs.external.isSome = true)
    (hfree : extEntry fs X = none) :
    install_mod fs X os =
      (match os with
       | none => (.success, addExtLink fs X)
       | some e => (map_symlink_error e.msg, fs)) := by
  have hex : extPathExists fs X = false := by
    rw [extPathExists, hfree]
  have hlex : extLexists fs X = false := by
    rw [extLexists, hfree]
    rfl
  rw [install_mod.eq_def, hman, hroot, hex, hlex]
  simp

/-- When the external entry is a symlink whose target exists (and the managed
check passes), `install_mod` reports `alreadyInstalled` and leaves the state
untouched, regardless of the OS oracle. -/
theorem install_already (fs : FS) (X : String) (t : LinkTarget) (os : Option OSErr)
    (hman : managedPathExists fs X = true)
    (hxe : extEntry fs X = some (.link t))
    (htex : linkTargetExists fs t = true) :
    install_mod fs X os = (.alreadyInstalled, fs) := by
  have hroot : fs.external.isSome = true := by
    cases hfse : fs.external with
    | none => rw [extEntry, hfse] at hxe; cases hxe
    | some es => rfl
  have hex : extPathExists fs X = true := by
    rw [extPathExists, hxe]
    exact htex
  have hsym : extPathIsSymlink fs X = true := by
    rw [extPathIsSymlink, hxe]
  rw [install_mod.eq_def, hman, hroot, hex, hsym]
  simp


/-! ## C2 — idempotence of install -/

/-- C2 (amended): for a managed folder `X`, with the external root present and
no entry named `X` under it, `install(X)` twice yields `success` then
`already_installed`, both calls leave the same state — exactly one new symlink
at `external/X` pointing at `managed/X` — and whenever the entry named `X`
under the external root is a symlink *whose target exists*, `install(X)`
returns `already_installed` and mutates nothing.  (For a dangling symlink the
original claim fails: see `c2_install_counterexample`.) -/
theorem c2_install_idempotent_amended (fs : FS) (ms : List (String × MEntry))
    (es : List (String × XEntry)) (X : String) (mf : Option XmlResult)
    (hm : fs.managed = some ms) (hX : lookupName X ms = some (.dir mf))
    (he : fs.external = some es) (hfree : lookupName X es = none) :
    install_mod fs X none = (.success, addExtLink fs X)
  ∧ (addExtLink fs X).external = some (es ++ [(X, .link (.intoManaged X))])
  ∧ (addExtLink fs X).managed = fs.managed
  ∧ install_mod (addExtLink fs X) X none = (.alreadyInstalled, addExtLink fs X)
  ∧ (∀ (fs2 : FS) (t : LinkTarget) (os : Option OSErr),
      managedPathExists fs2 X = true →
      extEntry fs2 X = some (.link t) →
      linkTargetExists fs2 t = true →
      install_mod fs2 X os = (.alreadyInstalled, fs2)) := by
  have hman : managedPathExists fs X = true := by
    rw [managedPathExists, hm, Option.getD_some, hX]
    rfl
  have hroot : fs.external.isSome = true := by
    rw [he]
    rfl
  have hfree' : extEntry fs X = none := by
    rw [extEntry, he, Option.getD_some]
    exact hfree
  have hext1 : (addExtLink fs X).external = some (es ++ [(X, .link (.intoManaged X))]) := by
    rw [addExtLink, he, Option.getD_some]
  have hxe1 : extEntry (addExtLink fs X) X = some (.link (.intoManaged X)) := by
    rw [extEntry, hext1, Option.getD_some]
    rw [lookupName_append_of_none _ hfree, lookupName_cons]
    rw [if_pos (beq_iff_eq.mpr rfl)]
  refine ⟨?_, hext1, rfl, ?_, ?_⟩
  · exact install_symlink_step fs X none hman hroot hfree'
  · exact install_already (addExtLink fs X) X (.intoManaged X) none hman hxe1 hman
  · intro fs2 t os h1 h2 h3
    exact install_already fs2 X t os h1 h2 h3

/-- C2 witness: `c2_install_idempotent_amended` at the concrete state
`fsW2`. -/
theorem c2_install_idempotent_amended_witness :
    install_mod fsW2 "X" none = (.success, addExtLink fsW2 "X")
  ∧ install_mod (addExtLink fsW2 "X") "X" none = (.alreadyInstalled, addExtLink fsW2 "X") :=
  ⟨(c2_install_idempotent_amended fsW2 [("X", .dir none)] [] "X" none rfl (by decide)
      rfl (by decide)).1,
   (c2_install_idempotent_amended fsW2 [("X", .dir none)] [] "X" none rfl (by decide)
      rfl (by decide)).2.2.2.1⟩

/-- C2 counterexample to the original claim: `managed/X` exists and
`extensions/X` is an entry that is a symlink (a dangling one); `install(X)`
returns an `IOError` (`os.symlink` raises `FileExistsError` because
`Path.exists()` followed the dangling link and reported the destination
free), not `already_installed`. -/
theorem c2_install_counterexample :
    (let fs : FS := ⟨some [("X", MEntry.dir none)], some [("X", XEntry.link .dangling)]⟩
     extEntry fs "X" = some (XEntry.link .dangling)
   ∧ (XEntry.link .dangling).isLink = true
   ∧ (install_mod fs "X" none).1 = .ioError fileExistsMsg
   ∧ (install_mod fs "X" none).1 ≠ .alreadyInstalled) := by decide


/-! ## C3 — install precondition order -/

/-- C3 (amended): `install(folderName)` returns `NotFound` when no *entry* of
that name exists under the managed root (a plain file passes the check, see
`c3_install_counterexample`), `InvalidConfig` when the managed entry exists
but the external root does not, `Conflict` when an entry of that name exists
under the external root and is not a symlink — in that order of precedence —
and a symlink is created (result `success`) only when none of these hold and
the destination name is completely free. -/
theorem c3_install_precedence_amended (fs : FS) (X : String) (os : Option OSErr) :
    (managedPathExists fs X = false → install_mod fs X os = (.notFound, fs))
  ∧ (managedPathExists fs X = true → fs.external = none →
      install_mod fs X os = (.invalidConfig, fs))
  ∧ (∀ e : XEntry, managedPathExists fs X = true → extEntry fs X = some e →
      e.isLink = false → install_mod fs X os = (.conflict, fs))
  ∧ ((install_mod fs X os).1 = .success →
      managedPathExists fs X = true ∧ fs.external.isSome = true ∧ extEntry fs X = none
        ∧ os = none ∧ install_mod fs X os = (.success, addExtLink fs X)) := by
  refine ⟨?_, ?_, ?_, ?_⟩
  · intro h
    rw [install_mod.eq_def, h]
    simp
  · intro h1 h2
    rw [install_mod.eq_def, h1, h2]
    simp
  · intro e h1 h2 h3
    have hroot : fs.external.isSome = true := by
      cases hfse : fs.external with
      | none => rw [extEntry, hfse] at h2; cases h2
      | some es => rfl
    have hex : extPathExists fs X = true := by
      rw [extPathExists, h2]
      cases e with
      | file => rfl
      | dir m => rfl
      | link t => cases h3
    have hsym : extPathIsSymlink fs X = false := by
      rw [extPathIsSymlink, h2]
      cases e with
      | file => rfl
      | dir m => rfl
      | link t => cases h3
    rw [install_mod.eq_def, h1, hroot, hex, hsym]
    simp
  · intro h
    cases hman : managedPathExists fs X with
    | false =>
      rw [install_mod.eq_def, hman] at h
      simp at h
    | true =>
      cases hroot : fs.external.isSome with
      | false =>
        rw [install_mod.eq_def, hman, hroot] at h
        simp at h
      | true =>
        cases hex : extPathExists fs X with
        | true =>
          rw [install_mod.eq_def, hman, hroot, hex] at h
          cases hsym : extPathIsSymlink fs X with
          | true => rw [hsym] at h; simp at h
          | false => rw [hsym] at h; simp at h
        | false =>
          cases hlex : extLexists fs X with
          | true =>
            rw [install_mod.eq_def, hman, hroot, hex, hlex] at h
            have hmap : map_symlink_error fileExistsMsg = .ioError fileExistsMsg := by decide
            simp [hmap] at h
          | false =>
            have hfree : extEntry fs X = none := by
              cases hxe : extEntry fs X with
              | none => rfl
              | some e =>
                rw [extLexists, hxe] at hlex
                cases hlex
            cases os with
            | none =>
              exact ⟨rfl, rfl, hfree, rfl,
                install_symlink_step fs X none hman hroot hfree⟩
            | some e =>
              have hstep := install_symlink_step fs X (some e) hman hroot hfree
              rw [hstep] at h
              simp only [map_symlink_error] at h
              split at h
              · cases h
              · cases h

/-- C3 witness: `c3_install_precedence_amended` at the concrete state `fsW3`
(conflict branch: a real directory occupies `extensions/X`). -/
theorem c3_install_precedence_amended_witness :
    install_mod fsW3 "X" none = (.conflict, fsW3) :=
  (c3_install_precedence_amended fsW3 "X" none).2.2.1 (XEntry.dir none)
    (by decide) (by decide) (by decide)

/-- C3 counterexample to the original claim: the only managed entry named `X`
is a plain file, so no managed *folder* of that name exists, yet `install(X)`
does not return `NotFound` — it proceeds and succeeds, because the code only
tests `mod_path.exists()`. -/
theorem c3_install_counterexample :
    (let fs : FS := ⟨some [("X", MEntry.file)], some []⟩
     lookupName "X" (fs.managed.getD []) = some MEntry.file
   ∧ (install_mod fs "X" none).1 = .success
   ∧ (install_mod fs "X" none).1 ≠ .notFound) := by decide


/-! ## C4 — uninstall safety -/

/-- C4 (amended): `uninstall(folderName)` returns `not_installed` and mutates
nothing when no external entry of that name exists; returns `Refused` and
leaves the entry untouched when the entry exists but is not a symlink; when
the entry is a symlink *whose target exists* it removes only the symlink
itself — the managed root (hence any link target inside it) and every other
external entry are untouched.  A symlink whose target does not exist is
reported `not_installed` and left in place (the original claim said it would
be removed: see `c4_uninstall_counterexample`). -/
theorem c4_uninstall_amended (fs : FS) (X : String) (os : Option OSErr) :
    (extEntry fs X = none → uninstall_mod fs X os = (.notInstalled, fs))
  ∧ (∀ e : XEntry, extEntry fs X = some e → e.isLink = false →
      uninstall_mod fs X os = (.refused, fs))
  ∧ (∀ t : LinkTarget, extEntry fs X = some (.link t) → linkTargetExists fs t = false →
      uninstall_mod fs X os = (.notInstalled, fs))
  ∧ (∀ t : LinkTarget, extEntry fs X = some (.link t) → linkTargetExists fs t = true →
      uninstall_mod fs X none = (.success, removeExtEntry fs X)
    ∧ (removeExtEntry fs X).managed = fs.managed
    ∧ (∀ Y : String, Y ≠ X → extEntry (removeExtEntry fs X) Y = extEntry fs Y)) := by
  refine ⟨?_, ?_, ?_, ?_⟩
  · intro h
    have hex : extPathExists fs X = false := by
      rw [extPathExists, h]
    rw [uninstall_mod.eq_def, hex]
    simp
  · intro e h1 h2
    have hex : extPathExists fs X = true := by
      rw [extPathExists, h1]
      cases e with
      | file => rfl
      | dir m => rfl
      | link t => cases h2
    have hsym : extPathIsSymlink fs X = false := by
      rw [extPathIsSymlink, h1]
      cases e with
      | file => rfl
      | dir m => rfl
      | link t => cases h2
    rw [uninstall_mod.eq_def, hex, hsym]
    simp
  · intro t h1 h2
    have hex : extPathExists fs X = false := by
      rw [extPathExists, h1]
      exact h2
    rw [uninstall_mod.eq_def, hex]
    simp
  · intro t h1 h2
    have hex : extPathExists fs X = true := by
      rw [extPathExists, h1]
      exact h2
    have hsym : extPathIsSymlink fs X = true := by
      rw [extPathIsSymlink, h1]
    refine ⟨?_, rfl, ?_⟩
    · rw [uninstall_mod.eq_def, hex, hsym]
      simp
    · intro Y hY
      rw [extEntry, extEntry]
      simp only [removeExtEntry]
      cases hfse : fs.external with
      | none => rfl
      | some es =>
        simp only [Option.map_some', Option.getD_some]
        exact lookupName_eraseName_ne es hY

/-- C4 witness: `c4_uninstall_amended` at the concrete state `fsW4`
(successful removal of a symlink to an existing external directory). -/
theorem c4_uninstall_amended_witness :
    uninstall_mod fsW4 "X" none = (.success, removeExtEntry fsW4 "X")
  ∧ (removeExtEntry fsW4 "X").managed = fsW4.managed :=
  ⟨((c4_uninstall_amended fsW4 "X" none).2.2.2 (.elsewhereDir none) (by decide) (by decide)).1,
   ((c4_uninstall_amended fsW4 "X" none).2.2.2 (.elsewhereDir none) (by decide) (by decide)).2.1⟩

/-- C4 counterexample to the original claim: `extensions/X` exists and is a
symlink (dangling), so the claim's "otherwise" branch says uninstall removes
it; the code instead reports `not_installed` and leaves the dangling symlink
in place, because `Path.exists()` follows the link. -/
theorem c4_uninstall_counterexample :
    (let fs : FS := ⟨some [], some [("X", XEntry.link .dangling)]⟩
     extEntry fs "X" = some (XEntry.link .dangling)
   ∧ (XEntry.link .dangling).isLink = true
   ∧ uninstall_mod fs "X" none = (.notInstalled, fs)
   ∧ extEntry (uninstall_mod fs "X" none).2 "X" = some (XEntry.link .dangling)) := by decide


/-! ## C5 — delete and the unlink step -/

/-- C5 (amended): for a managed entry `X`, `delete(X)` first removes the
external symlink when `extensions/X` exists (in the followed sense) and is a
symlink, and then recursively removes the managed folder — but the unlink
step is *not* best-effort: an `OSError` from `os.unlink` propagates unhandled
and aborts the delete, leaving the managed folder in place (the original
claim said the managed folder is removed even then: see
`c5_delete_counterexample`).  When the unlink step is skipped, the managed
folder is removed directly. -/
theorem c5_delete_amended (fs : FS) (X : String) (ue re : Option OSErr)
    (hman : managedPathExists fs X = true) :
    ((extPathExists fs X && extPathIsSymlink fs X) = true →
       (∀ e : OSErr, ue = some e → delete_mod fs X ue re = (.unhandledError e.msg, fs))
     ∧ (ue = none → re = none →
         delete_mod fs X ue re = (.success, removeManagedEntry (removeExtEntry fs X) X)))
  ∧ ((extPathExists fs X && extPathIsSymlink fs X) = false → re = none →
      delete_mod fs X ue re = (.success, removeManagedEntry fs X)) := by
  constructor
  · intro hcond
    constructor
    · intro e he
      rw [he, delete_mod.eq_def, hman, hcond]
      simp
    · intro hue hre
      rw [hue, hre, delete_mod.eq_def, hman, hcond]
      simp
  · intro hcond hre
    rw [hre, delete_mod.eq_def, hman, hcond]
    simp

/-- C5 witness: `c5_delete_amended` at the concrete state `fsW5`: with no OS
failure, delete removes the symlink and then the managed folder. -/
theorem c5_delete_amended_witness :
    delete_mod fsW5 "X" none none
      = (.success, removeManagedEntry (removeExtEntry fsW5 "X") "X") :=
  ((c5_delete_amended fsW5 "X" none none (by decide)).1 (by decide)).2 rfl rfl

/-- C5 counterexample to the original claim: `mods/X` is installed; the
`os.unlink` step fails with an `OSError`, which propagates out of the handler
unhandled, and the managed folder is *not* removed — the claim said the
delete proceeds and removes it. -/
theorem c5_delete_counterexample :
    (let fs : FS := ⟨some [("X", MEntry.dir none)], some [("X", XEntry.link (.intoManaged "X"))]⟩
     let e : OSErr := ⟨"[Errno 16] Device or resource busy", false⟩
     delete_mod fs "X" (some e) none = (.unhandledError e.msg, fs)
   ∧ managedPathExists (delete_mod fs "X" (some e) none).2 "X" = true) := by decide

/-! ## C6 — OS failure mapping during symlink creation -/

/-- C6 (amended): when `install` reaches the symlink creation and the OS call
fails, the error is classified purely by its message text: it surfaces as
`PermissionDenied` exactly when `str(e).lower()` contains `"privilege"` or
`str(e)` contains `"1314"`, and as `IOError` carrying the message otherwise —
in particular a genuine permission denial whose message lacks those markers
(e.g. a POSIX `Permission denied`) surfaces as `IOError`, not
`PermissionDenied` (see `c6_error_mapping_counterexample`). -/
theorem c6_error_mapping_amended (fs : FS) (X : String) (e : OSErr)
    (hman : managedPathExists fs X = true)
    (hroot : fs.external.isSome = true)
    (hfree : extEntry fs X = none) :
    install_mod fs X (some e) = (map_symlink_error e.msg, fs)
  ∧ (map_symlink_error e.msg = .permissionDenied ↔
      (strContainsAux "privilege".toList (lowerChars e.msg) || strContains "1314" e.msg) = true)
  ∧ (map_symlink_error e.msg ≠ .permissionDenied →
      map_symlink_error e.msg = .ioError e.msg) := by
  refine ⟨install_symlink_step fs X (some e) hman hroot hfree, ?_, ?_⟩
  · by_cases hc : (strContainsAux "privilege".toList (lowerChars e.msg) || strContains "1314" e.msg) = true
    · rw [map_symlink_error, if_pos hc]
      exact iff_of_true rfl hc
    · rw [map_symlink_error, if_neg hc]
      exact iff_of_false (fun h => InstallResult.noConfusion h) hc
  · intro hne
    by_cases hc : (strContainsAux "privilege".toList (lowerChars e.msg) || strContains "1314" e.msg) = true
    · rw [map_symlink_error, if_pos hc] at hne
      exact absurd rfl hne
    · rw [map_symlink_error, if_neg hc]

/-- C6 witness: `c6_error_mapping_amended` at the concrete state `fsW6` with
the Windows symlink-privilege error: it is surfaced as `PermissionDenied`. -/
theorem c6_error_mapping_amended_witness :
    install_mod fsW6 "X" (some ⟨"[WinError 1314] A required privilege is not held by the client", true⟩)
      = (map_symlink_error "[WinError 1314] A required privilege is not held by the client", fsW6)
  ∧ map_symlink_error "[WinError 1314] A required privilege is not held by the client"
      = .permissionDenied :=
  ⟨(c6_error_mapping_amended fsW6 "X" ⟨"[WinError 1314] A required privilege is not held by the client", true⟩
      (by decide) (by decide) (by decide)).1,
   by decide⟩

/-- C6 counterexample to the original claim: a POSIX permission denial
(`errno 13`, message "Permission denied") is an OS permission error, but its
message contains neither "privilege" nor "1314", so the code surfaces it as
the generic `IOError`, not as `PermissionDenied`. -/
theorem c6_error_mapping_counterexample :
    (let fs : FS := ⟨some [("X", MEntry.dir none)], some []⟩
     let e : OSErr := ⟨"[Errno 13] Permission denied", true⟩
     e.isPermissionDenial = true
   ∧ (install_mod fs "X" (some e)).1 = .ioError "[Errno 13] Permission denied"
   ∧ (install_mod fs "X" (some e)).1 ≠ .permissionDenied) := by decide


/-! ## C7 — manifest parsing defaults and soft failure -/

/-- C7: `parse_content_xml` substitutes the documented default for each
absent attribute (`id` → "unknown", `name` → "Unknown Mod", `author` →
"Unknown", `version` → "0", `description` → "", `date` → "", and `enabled` is
true exactly when the raw attribute value — defaulting to the enabled-marker
`"1"` when absent — equals `"1"`); every malformed manifest yields `none`
rather than raising; and the scanning caller skips a folder whose manifest
fails to parse without aborting the scan of the remaining folders. -/
theorem c7_parse_defaults :
    parse_content_xml .malformed = none
  ∧ (∀ a : ContentAttrs, (parse_content_xml (.elem a)).isSome = true)
  ∧ (∀ (a : ContentAttrs) (r : ParsedInfo), parse_content_xml (.elem a) = some r →
      (a.id = none → r.id = "unknown")
    ∧ (a.name = none → r.name = "Unknown Mod")
    ∧ (a.author = none → r.author = "Unknown")
    ∧ (a.version = none → r.version = "0")
    ∧ (a.description = none → r.description = "")
    ∧ (a.date = none → r.date = "")
    ∧ (a.enabled = none → r.enabled = true)
    ∧ (∀ v : String, a.enabled = some v → (r.enabled = true ↔ v = "1")))
  ∧ (∀ (fs : FS) (pre post : List (String × MEntry)) (X : String) (xml : XmlResult),
      fs.managed = some (pre ++ (X, MEntry.dir (some xml)) :: post) →
      parse_content_xml xml = none →
      get_available_mods fs = (pre ++ post).filterMap (availableRecord fs)) := by
  refine ⟨rfl, fun a => rfl, ?_, ?_⟩
  · intro a r h
    injection h with h2
    rw [← h2]
    refine ⟨?_, ?_, ?_, ?_, ?_, ?_, ?_, ?_⟩
    · intro ha; rw [ha]; rfl
    · intro ha; rw [ha]; rfl
    · intro ha; rw [ha]; rfl
    · intro ha; rw [ha]; rfl
    · intro ha; rw [ha]; rfl
    · intro ha; rw [ha]; rfl
    · intro ha; rw [ha]; rfl
    · intro v hv
      show (a.enabled.getD "1" == "1") = true ↔ v = "1"
      rw [hv, Option.getD_some]
      exact beq_iff_eq
  · intro fs pre post X xml hm hp
    have hbad : availableRecord fs (X, MEntry.dir (some xml)) = none := by
      simp only [availableRecord, hp]
    simp only [get_available_mods, hm]
    rw [List.filterMap_append, List.filterMap_cons, hbad, List.filterMap_append]

/-- C7 witness: `c7_parse_defaults` at the all-absent attribute record: every
default is substituted and `enabled` defaults to true. -/
theorem c7_parse_defaults_witness :
    parse_content_xml (.elem ⟨none, none, none, none, none, none, none⟩) = some infoAllDefault
  ∧ infoAllDefault.id = "unknown"
  ∧ infoAllDefault.enabled = true :=
  ⟨by decide,
   (c7_parse_defaults.2.2.1 ⟨none, none, none, none, none, none, none⟩ infoAllDefault
      (by decide)).1 rfl,
   (c7_parse_defaults.2.2.1 ⟨none, none, none, none, none, none, none⟩ infoAllDefault
      (by decide)).2.2.2.2.2.2.1 rfl⟩

/-! ## C8 — managed record count -/

/-- Counting form of the managed scan: each subdirectory is listed unless its
manifest is missing or unparsable. -/
theorem avail_length_count (fs : FS) (ms : List (String × MEntry)) :
    (ms.filterMap (availableRecord fs)).length + countNoManifest ms + countBadManifest ms
      = countSubdirs ms := by
  induction ms with
  | nil => rfl
  | cons p ps ih =>
    obtain ⟨nm, e⟩ := p
    rw [List.filterMap_cons]
    cases e with
    | file =>
      have h1 : availableRecord fs (nm, MEntry.file) = none := rfl
      rw [h1]
      simp only [countSubdirs, countNoManifest, countBadManifest, MEntry.isDir]
      simpa using ih
    | dir contentXml =>
      cases contentXml with
      | none =>
        have h1 : availableRecord fs (nm, MEntry.dir none) = none := rfl
        rw [h1]
        simp [countSubdirs, countNoManifest, countBadManifest, MEntry.isDir]
        omega
      | some xml =>
        cases hp : parse_content_xml xml with
        | none =>
          have h1 : availableRecord fs (nm, MEntry.dir (some xml)) = none := by
            simp only [availableRecord, hp]
          rw [h1]
          simp [countSubdirs, countNoManifest, countBadManifest, MEntry.isDir, hp]
          omega
        | some info =>
          rw [availableRecord_dir_some hp]
          simp [countSubdirs, countNoManifest, countBadManifest, MEntry.isDir, hp]
          omega

/-- C8 (amended): scanning a managed root of N immediate subdirectories of
which M lack a manifest file *and K have a manifest that fails to parse*
yields exactly N − M − K managed records: folders are excluded exactly when
the manifest is missing or unparsable, not only when it is missing (the
original N − M count is refuted by `c8_count_counterexample`). -/
theorem c8_count_amended (fs : FS) (ms : List (String × MEntry))
    (hm : fs.managed = some ms) :
    (list_mods fs).managed.length + countNoManifest ms + countBadManifest ms = countSubdirs ms
  ∧ (list_mods fs).managed.length
      = countSubdirs ms - (countNoManifest ms + countBadManifest ms) := by
  have h : (list_mods fs).managed = ms.filterMap (availableRecord fs) := by
    simp only [list_mods, get_available_mods, hm]
  rw [h]
  have := avail_length_count fs ms
  omega

/-- C8 witness: `c8_count_amended` at the concrete scan `msW8`: N = 2 (the
plain file does not count), M = 1, K = 0, and exactly one managed record is
produced. -/
theorem c8_count_amended_witness :
    ((list_mods fsW8).managed.length
        = countSubdirs msW8 - (countNoManifest msW8 + countBadManifest msW8))
  ∧ countSubdirs msW8 = 2 ∧ countNoManifest msW8 = 1 ∧ countBadManifest msW8 = 0
  ∧ (list_mods fsW8).managed.length = 1 :=
  ⟨(c8_count_amended fsW8 msW8 rfl).2, by decide, by decide, by decide, by decide⟩

/-- C8 counterexample to the original claim: one managed subdirectory whose
manifest file exists but is malformed: N = 1, M = 0 (it does not lack a
manifest file), yet zero managed records are returned, not N − M = 1. -/
theorem c8_count_counterexample :
    (let fs : FS := ⟨some [("A", MEntry.dir (some XmlResult.malformed))], some []⟩
     countSubdirs [("A", MEntry.dir (some XmlResult.malformed))] = 1
   ∧ countNoManifest [("A", MEntry.dir (some XmlResult.malformed))] = 0
   ∧ (list_mods fs).managed.length = 0) := by decide


/-! ## C9 — config persistence is not all-or-nothing -/

/-- C9 (amended): a completed `save_config` leaves exactly the complete new
document; a failed one leaves the prefix of the new document written before
the failure (possibly empty).  The old document is destroyed by the in-place
truncation either way, so the file is *not* guaranteed to hold the complete
old or the complete new document (the original all-or-nothing claim is
refuted by `c9_save_config_counterexample`). -/
theorem c9_save_config_amended (oldContent newDoc : String) (o : WriteOutcome) :
    save_config oldContent newDoc o = newDoc
  ∨ (∃ k : Nat, o = .failedAfter k ∧ save_config oldContent newDoc o = newDoc.take k) := by
  cases o with
  | completed => exact Or.inl rfl
  | failedAfter k => exact Or.inr ⟨k, rfl, rfl⟩

/-- C9 counterexample to the original claim: a save of `"NEWDOC"` over
`"OLD"` that fails after two characters leaves `"NE"` — neither the complete
old document nor the complete new one. -/
theorem c9_save_config_counterexample :
    save_config "OLD" "NEWDOC" (.failedAfter 2) = "NE"
  ∧ "NE" ≠ "OLD" ∧ "NE" ≠ "NEWDOC" := by decide

/-! ## C10 — the NotFound check tests bare existence -/

/-- C10: `install`'s `NotFound` precondition tests only that some filesystem
entry of the requested name exists under the managed root: with any such
entry present (a plain file or a manifest-less directory included) the check
passes — the result is never `NotFound`, and with the external root present
and the destination free the symlink is created — even though
`get_available_mods` omits such a folder from the managed list. -/
theorem c10_notfound_check (fs : FS) (ms : List (String × MEntry)) (X : String)
    (os : Option OSErr) (hm : fs.managed = some ms)
    (hsome : (lookupName X ms).isSome = true) :
    (install_mod fs X os).1 ≠ .notFound
  ∧ ((∀ v : MEntry, (X, v) ∈ ms → v = .file ∨ v = .dir none) →
      ∀ m ∈ get_available_mods fs, ¬ m.folder_name = X)
  ∧ (fs.external.isSome = true → extEntry fs X = none →
      install_mod fs X none = (.success, addExtLink fs X)) := by
  have hman : managedPathExists fs X = true := by
    rw [managedPathExists, hm, Option.getD_some]
    exact hsome
  refine ⟨?_, ?_, ?_⟩
  · intro hcontra
    rw [install_mod.eq_def, hman] at hcontra
    simp only [Bool.not_true, Bool.false_eq_true, if_false] at hcontra
    split at hcontra
    · simp at hcontra
    · split at hcontra
      · split at hcontra
        · simp at hcontra
        · simp at hcontra
      · split at hcontra
        · have hmap : map_symlink_error fileExistsMsg = .ioError fileExistsMsg := by decide
          rw [hmap] at hcontra
          simp at hcontra
        · split at hcontra
          · simp at hcontra
          · rename_i e
            have : map_symlink_error e.msg ≠ .notFound := by
              rw [map_symlink_error]
              split
              · exact fun h => InstallResult.noConfusion h
              · exact fun h => InstallResult.noConfusion h
            simp only at hcontra
            exact this hcontra
  · intro hshape m hmem hfn
    rw [get_available_mods, hm] at hmem
    rw [List.mem_filterMap] at hmem
    obtain ⟨p, hp, hrec⟩ := hmem
    have hname : m.folder_name = p.1 := (availableRecord_eq_some hrec).1
    have hpX : p.1 = X := hname ▸ hfn
    have hmem2 : (X, p.2) ∈ ms := by
      rw [← hpX]
      exact hp
    cases hshape p.2 hmem2 with
    | inl hfile =>
      rw [availableRecord, hfile] at hrec
      cases hrec
    | inr hdir =>
      rw [availableRecord, hdir] at hrec
      cases hrec
  · intro hroot hfree
    exact install_symlink_step fs X none hman hroot hfree

/-- C10 witness: `c10_notfound_check` at the concrete state `fsW10`: the
plain file `mods/X` passes the NotFound check, `install` succeeds, and the
managed list omits `X`. -/
theorem c10_notfound_check_witness :
    (install_mod fsW10 "X" none).1 ≠ .notFound
  ∧ install_mod fsW10 "X" none = (.success, addExtLink fsW10 "X") :=
  ⟨(c10_notfound_check fsW10 [("X", MEntry.file)] "X" none rfl (by decide)).1,
   (c10_notfound_check fsW10 [("X", MEntry.file)] "X" none rfl (by decide)).2.2
     (by decide) (by decide)⟩
